import Mathlib

/-!
Verification of the bit-banged I2C protocol engine of the max1730x logger.

The FTDI bridge transport is modelled by `FTState`: the ordered stream of
command bytes the engine has written so far, together with the queue of
response bytes the (mocked) device will deliver to subsequent reads.
Writing appends to the command stream; reading consumes from the response
queue.  A Python `IOError` raised on a NACK becomes an `Except` error that
carries the transport state at the moment of the failure, since the bytes
already written to the device stay written when the exception unwinds.
-/

-- Constants for building commands for the FTDI MPSSE (ftd2xx_iface.py).
def CMD_SET_DATABITS_LOW : Nat := 0x80
def CMD_DATAOUT_NEG_EDGE : Nat := 0x13
def CMD_DATAIN_POS_EDGE : Nat := 0x22
def CMD_SEND_IMMEDIATE : Nat := 0x87
def CMD_CLKDIV_DISABLE : Nat := 0x8B
def CMD_SET_CLOCK : Nat := 0x86
def DATASIZE_1BIT : Nat := 0x00
def DATASIZE_8BITS : Nat := 0x07
def DATA_SEND_NACK : Nat := 0x80
def DATA_SEND_ACK : Nat := 0x00
def VAL_SCLHI_SDAHI : Nat := 0x03
def VAL_SCLHI_SDALO : Nat := 0x01
def VAL_SCLLO_SDALO : Nat := 0x00
def VAL_SCLLO_SDAHI : Nat := 0x02
def DIR_SCLOUT_SDAOUT : Nat := 0x13
def DIR_SCLIN_SDAIN : Nat := 0x10
def DIR_SCLOUT_SDAIN : Nat := 0x11

/-- Transport state: command bytes written to the bridge so far, and the
response bytes still pending in the receive queue. -/
structure FTState where
  written : List Nat
  responses : List Nat
deriving DecidableEq

/-- Faults the engine can signal: `nack` models the `IOError` raised on a
NACK bit, `shortRead` a transport read that cannot deliver the requested
byte count, `structFault` the `struct.error` of a size-mismatched unpack. -/
inductive I2CErr
  | nack
  | shortRead
  | structFault
deriving DecidableEq

/-- `__ft_write`: writes a byte stream to the FTDI for processing. -/
def ft_write (s : FTState) (data : List Nat) : FTState :=
  ⟨s.written ++ data, s.responses⟩

/-- `__ft_read`: reads the specified number of bytes from the device
receive queue.  The underlying driver read blocks until the bytes are
available; a queue holding fewer bytes than requested is a transport
fault in this model. -/
def ft_read (s : FTState) (nbytes : Nat) : Option (List Nat × FTState) :=
  if nbytes ≤ s.responses.length then
    some (s.responses.take nbytes, ⟨s.written, s.responses.drop nbytes⟩)
  else
    none

def START_DUR_1 : Nat := 10
def START_DUR_2 : Nat := 20

/-- Command bytes of `__ft_i2c_start`: the Python list
`[set, hi_hi, out_out] * START_DUR_1` extended by
`[set, hi_lo, out_out] * START_DUR_2` and one final low-low command. -/
def ft_i2c_start_cmds : List Nat :=
  (List.replicate START_DUR_1
    [CMD_SET_DATABITS_LOW, VAL_SCLHI_SDAHI, DIR_SCLOUT_SDAOUT]).flatten ++
  (List.replicate START_DUR_2
    [CMD_SET_DATABITS_LOW, VAL_SCLHI_SDALO, DIR_SCLOUT_SDAOUT]).flatten ++
  [CMD_SET_DATABITS_LOW, VAL_SCLLO_SDALO, DIR_SCLOUT_SDAOUT]

/-- `__ft_i2c_start`: performs an I2C bus start action. -/
def ft_i2c_start (s : FTState) : FTState :=
  ft_write s ft_i2c_start_cmds

def STOP_DUR_1 : Nat := 10
def STOP_DUR_2 : Nat := 10
def STOP_DUR_3 : Nat := 10

/-- Command bytes of `__ft_i2c_stop`: three dwell phases followed by the
release of both lines to input direction. -/
def ft_i2c_stop_cmds : List Nat :=
  (List.replicate STOP_DUR_1
    [CMD_SET_DATABITS_LOW, VAL_SCLLO_SDALO, DIR_SCLOUT_SDAOUT]).flatten ++
  (List.replicate STOP_DUR_2
    [CMD_SET_DATABITS_LOW, VAL_SCLHI_SDALO, DIR_SCLOUT_SDAOUT]).flatten ++
  (List.replicate STOP_DUR_3
    [CMD_SET_DATABITS_LOW, VAL_SCLHI_SDAHI, DIR_SCLOUT_SDAOUT]).flatten ++
  [CMD_SET_DATABITS_LOW, VAL_SCLHI_SDAHI, DIR_SCLIN_SDAIN]

/-- `__ft_i2c_stop`: performs an I2C bus stop action. -/
def ft_i2c_stop (s : FTState) : FTState :=
  ft_write s ft_i2c_stop_cmds

/-- Command bytes of `__ft_i2c_write_get_ack` for a given data byte. -/
def write_get_ack_cmds (data : Nat) : List Nat :=
  [CMD_SET_DATABITS_LOW, VAL_SCLLO_SDAHI, DIR_SCLOUT_SDAOUT] ++
  [CMD_DATAOUT_NEG_EDGE, DATASIZE_8BITS, data] ++
  [CMD_SET_DATABITS_LOW, VAL_SCLLO_SDALO, DIR_SCLOUT_SDAIN] ++
  [CMD_DATAIN_POS_EDGE, DATASIZE_1BIT] ++
  [CMD_SEND_IMMEDIATE]

/-- `__ft_i2c_write_get_ack`: writes the data byte commands, reads one
response byte, and raises on a NACK (bit 0 of the response set). -/
def ft_i2c_write_get_ack (s : FTState) (data : Nat) :
    Except (I2CErr × FTState) FTState :=
  let s1 := ft_write s (write_get_ack_cmds data)
  match ft_read s1 1 with
  | none => .error (.shortRead, s1)
  | some (result, s2) =>
    if result.headD 0 &&& 0x1 ≠ 0 then .error (.nack, s2) else .ok s2

/-- Command bytes of `__ft_i2c_read_give_ack` for a given nack flag. -/
def read_give_ack_cmds (nack : Bool) : List Nat :=
  [CMD_SET_DATABITS_LOW, VAL_SCLLO_SDALO, DIR_SCLOUT_SDAIN] ++
  [CMD_DATAIN_POS_EDGE, DATASIZE_8BITS] ++
  (if nack then
    [CMD_SET_DATABITS_LOW, VAL_SCLLO_SDALO, DIR_SCLOUT_SDAIN] ++
    [CMD_DATAOUT_NEG_EDGE, DATASIZE_1BIT, DATA_SEND_NACK]
  else
    [CMD_SET_DATABITS_LOW, VAL_SCLLO_SDALO, DIR_SCLOUT_SDAOUT] ++
    [CMD_DATAOUT_NEG_EDGE, DATASIZE_1BIT, DATA_SEND_ACK]) ++
  [CMD_SET_DATABITS_LOW, VAL_SCLLO_SDALO, DIR_SCLOUT_SDAIN] ++
  [CMD_SEND_IMMEDIATE]

/-- `__ft_i2c_read_give_ack`: reads a byte from the bus and provides the
corresponding end bit (ACK, or NACK when `nack` is true). -/
def ft_i2c_read_give_ack (s : FTState) (nack : Bool) :
    Except (I2CErr × FTState) (Nat × FTState) :=
  let s1 := ft_write s (read_give_ack_cmds nack)
  match ft_read s1 1 with
  | none => .error (.shortRead, s1)
  | some (result, s2) => .ok (result.headD 0, s2)

/-- `__ft_i2c_dev_addr`: sends the device address, masking the lowest bit
to 0 and setting it for a read action. -/
def ft_i2c_dev_addr (s : FTState) (bus_addr : Nat) (read : Bool) :
    Except (I2CErr × FTState) FTState :=
  let addr := bus_addr &&& 0xFE
  let addr := if read then addr ||| 0x1 else addr
  ft_i2c_write_get_ack s addr

/-- `__ft_i2c_write_reg_addr`: starts the bus, sends the device address
then the register address; a stop bit is optional. -/
def ft_i2c_write_reg_addr (s : FTState) (bus_addr reg_addr : Nat)
    (stop : Bool) : Except (I2CErr × FTState) FTState :=
  let s1 := ft_i2c_start s
  match ft_i2c_dev_addr s1 bus_addr false with
  | .error e => .error e
  | .ok s2 =>
    match ft_i2c_write_get_ack s2 reg_addr with
    | .error e => .error e
    | .ok s3 => .ok (if stop then ft_i2c_stop s3 else s3)

/-- The data-byte loop of `__ft_i2c_read_bytes`, by recursion on the
number of bytes still to read: the Python loop index `i` runs over
`range(num_bytes)` and NACKs when `i == num_bytes - 1`, which is exactly
when no byte remains after the current one. -/
def ft_i2c_read_loop : FTState → Nat → Except (I2CErr × FTState) (List Nat × FTState)
  | s, 0 => .ok ([], s)
  | s, n + 1 =>
    match ft_i2c_read_give_ack s (n == 0) with
    | .error e => .error e
    | .ok (b, s1) =>
      match ft_i2c_read_loop s1 n with
      | .error e => .error e
      | .ok (rest, s2) => .ok (b :: rest, s2)

/-- `__ft_i2c_read_bytes`: starts the bus, sends the device address with
the read flag, performs `num_bytes` reads NACKing the last data byte,
optionally stops, and returns the bytes read. -/
def ft_i2c_read_bytes (s : FTState) (bus_addr num_bytes : Nat)
    (stop : Bool) : Except (I2CErr × FTState) (List Nat × FTState) :=
  let s1 := ft_i2c_start s
  match ft_i2c_dev_addr s1 bus_addr true with
  | .error e => .error e
  | .ok s2 =>
    match ft_i2c_read_loop s2 num_bytes with
    | .error e => .error e
    | .ok (out_data, s3) =>
      .ok (out_data, if stop then ft_i2c_stop s3 else s3)

/-- Little-endian pairing of a byte list into 16-bit words, as performed
by the format string of `struct.unpack` with repeated unsigned shorts. -/
def le_word_decode : List Nat → List Nat
  | b0 :: b1 :: rest => (b0 + 256 * b1) :: le_word_decode rest
  | _ => []

/-- `unpack` with format `<` followed by `num_words` copies of `H`:
requires exactly `2 * num_words` input bytes, else raises. -/
def unpack_le_words (num_words : Nat) (bs : List Nat) : Option (List Nat) :=
  if bs.length = 2 * num_words then some (le_word_decode bs) else none

/-- `ftd2xx_i2c.i2c_read_words`: register-pointer write without stop, then
an addressed read of `num_words * 2` bytes with stop, decoded little
endian as unsigned shorts. -/
def i2c_read_words (s : FTState) (bus_addr reg_addr num_words : Nat) :
    Except (I2CErr × FTState) (List Nat × FTState) :=
  match ft_i2c_write_reg_addr s bus_addr reg_addr false with
  | .error e => .error e
  | .ok s1 =>
    match ft_i2c_read_bytes s1 bus_addr (num_words * 2) true with
    | .error e => .error e
    | .ok (rd, s2) =>
      match unpack_le_words num_words rd with
      | none => .error (.structFault, s2)
      | some ws => .ok (ws, s2)

/-- `ftd2xx_i2c.sbs_block_read`: register-pointer write without stop, then
an addressed read of `num_bytes` raw bytes with stop. -/
def sbs_block_read (s : FTState) (bus_addr reg_addr num_bytes : Nat) :
    Except (I2CErr × FTState) (List Nat × FTState) :=
  match ft_i2c_write_reg_addr s bus_addr reg_addr false with
  | .error e => .error e
  | .ok s1 => ft_i2c_read_bytes s1 bus_addr num_bytes true

/-- `ftd2xx_i2c.sbs_word_read`: the first element of
`i2c_read_words` with `num_words = 1`. -/
def sbs_word_read (s : FTState) (bus_addr reg_addr : Nat) :
    Except (I2CErr × FTState) (Nat × FTState) :=
  match i2c_read_words s bus_addr reg_addr 1 with
  | .error e => .error e
  | .ok (ws, s1) => .ok (ws.headD 0, s1)

/-- The command-stream portion of `ftd2xx_i2c.__init__` after the MPSSE
mode is enabled: disable the clock divide-by-5, program the clock divisor
low byte then high byte, flush the receive queue by reading two bytes,
and set the idle pin state.  The driver-level calls (open, latency timer,
bit mode, sleep) do not touch the command stream and are outside this
model. -/
def ftd2xx_init (s : FTState) : Option FTState :=
  let s1 := ft_write s [CMD_CLKDIV_DISABLE, 1]
  let div := 6000000 / (40000 * 2) - 1
  let s2 := ft_write s1 [CMD_SET_CLOCK, div % 256, div / 256]
  match ft_read s2 2 with
  | none => none
  | some (_, s3) => some (ft_write s3 [CMD_SET_DATABITS_LOW, 0x13, 0x13])

/-- `smbus2_i2c.i2c_read_words`.  The external smbus2 library call
`read_i2c_block_data(bus_addr >> 1, reg_addr, n)` is modelled from the
spec by the device-state function `dev`, which for a 7-bit address, a
register address and a byte count delivers the raw bytes of the device. -/
def smbus2_i2c_read_words (dev : Nat → Nat → Nat → List Nat)
    (bus_addr reg_addr num_words : Nat) : Option (List Nat) :=
  unpack_le_words num_words (dev (bus_addr >>> 1) reg_addr (num_words * 2))

/-- `smbus2_i2c.sbs_block_read`, with the external bus call modelled by
the device-state function `dev` as above. -/
def smbus2_sbs_block_read (dev : Nat → Nat → Nat → List Nat)
    (bus_addr reg_addr num_bytes : Nat) : List Nat :=
  dev (bus_addr >>> 1) reg_addr num_bytes

/-- `smbus2_i2c.sbs_word_read`, with the external bus call modelled by
the device-state function `dev` as above. -/
def smbus2_sbs_word_read (dev : Nat → Nat → Nat → List Nat)
    (bus_addr reg_addr : Nat) : Option Nat :=
  (unpack_le_words 1 (dev (bus_addr >>> 1) reg_addr 2)).map (fun ws => ws.headD 0)

/-- The sequence of nack flags fed to `ft_i2c_read_give_ack` over an
N-byte read, in transfer order. -/
def readFlags : Nat → List Bool
  | 0 => []
  | n + 1 => (n == 0) :: readFlags n

theorem le_word_decode_sample : le_word_decode [0x34, 0x12, 0x78, 0x56] = [0x1234, 0x5678] := by
  decide

theorem readFlags_sample : readFlags 3 = [false, false, true] := by
  decide

theorem ft_read_one (s : FTState) (r : Nat) (rest : List Nat)
    (h : s.responses = r :: rest) :
    ft_read s 1 = some ([r], ⟨s.written, rest⟩) := by
  simp [ft_read, h]

theorem write_get_ack_ok (s : FTState) (d r : Nat) (rest : List Nat)
    (h : s.responses = r :: rest) (hr : r &&& 1 = 0) :
    ft_i2c_write_get_ack s d = .ok ⟨s.written ++ write_get_ack_cmds d, rest⟩ := by
  unfold ft_i2c_write_get_ack
  dsimp only
  rw [ft_read_one (ft_write s (write_get_ack_cmds d)) r rest (by simp [ft_write, h])]
  simp [ft_write, hr]

theorem write_get_ack_nack (s : FTState) (d r : Nat) (rest : List Nat)
    (h : s.responses = r :: rest) (hr : r &&& 1 ≠ 0) :
    ft_i2c_write_get_ack s d =
      .error (.nack, ⟨s.written ++ write_get_ack_cmds d, rest⟩) := by
  unfold ft_i2c_write_get_ack
  dsimp only
  rw [ft_read_one (ft_write s (write_get_ack_cmds d)) r rest (by simp [ft_write, h])]
  rw [Nat.and_one_is_mod] at hr
  simp [ft_write]
  omega

theorem read_give_ack_eval (s : FTState) (nk : Bool) (r : Nat) (rest : List Nat)
    (h : s.responses = r :: rest) :
    ft_i2c_read_give_ack s nk = .ok (r, ⟨s.written ++ read_give_ack_cmds nk, rest⟩) := by
  unfold ft_i2c_read_give_ack
  dsimp only
  rw [ft_read_one (ft_write s (read_give_ack_cmds nk)) r rest (by simp [ft_write, h])]
  simp [ft_write]

theorem dev_addr_write_ok (s : FTState) (b r : Nat) (rest : List Nat)
    (h : s.responses = r :: rest) (hr : r &&& 1 = 0) :
    ft_i2c_dev_addr s b false = .ok ⟨s.written ++ write_get_ack_cmds (b &&& 0xFE), rest⟩ := by
  unfold ft_i2c_dev_addr
  simpa using write_get_ack_ok s (b &&& 0xFE) r rest h hr

theorem dev_addr_read_ok (s : FTState) (b r : Nat) (rest : List Nat)
    (h : s.responses = r :: rest) (hr : r &&& 1 = 0) :
    ft_i2c_dev_addr s b true =
      .ok ⟨s.written ++ write_get_ack_cmds ((b &&& 0xFE) ||| 0x1), rest⟩ := by
  unfold ft_i2c_dev_addr
  simpa using write_get_ack_ok s ((b &&& 0xFE) ||| 0x1) r rest h hr

theorem dev_addr_write_nack (s : FTState) (b r : Nat) (rest : List Nat)
    (h : s.responses = r :: rest) (hr : r &&& 1 ≠ 0) :
    ft_i2c_dev_addr s b false =
      .error (.nack, ⟨s.written ++ write_get_ack_cmds (b &&& 0xFE), rest⟩) := by
  unfold ft_i2c_dev_addr
  simpa using write_get_ack_nack s (b &&& 0xFE) r rest h hr

theorem write_reg_addr_ok (s : FTState) (b reg : Nat) (a1 a2 : Nat) (rest : List Nat)
    (h : s.responses = a1 :: a2 :: rest) (h1 : a1 &&& 1 = 0) (h2 : a2 &&& 1 = 0) :
    ft_i2c_write_reg_addr s b reg false =
      .ok ⟨s.written ++ ft_i2c_start_cmds ++ write_get_ack_cmds (b &&& 0xFE) ++
        write_get_ack_cmds reg, rest⟩ := by
  unfold ft_i2c_write_reg_addr
  dsimp only
  rw [dev_addr_write_ok (ft_i2c_start s) b a1 (a2 :: rest)
    (by simp [ft_i2c_start, ft_write, h]) h1]
  dsimp only
  rw [write_get_ack_ok _ reg a2 rest rfl h2]
  simp [ft_i2c_start, ft_write, List.append_assoc]

theorem write_reg_addr_nack (s : FTState) (b reg : Nat) (stop : Bool) (a1 : Nat)
    (rest : List Nat) (h : s.responses = a1 :: rest) (h1 : a1 &&& 1 ≠ 0) :
    ft_i2c_write_reg_addr s b reg stop =
      .error (.nack, ⟨s.written ++ ft_i2c_start_cmds ++ write_get_ack_cmds (b &&& 0xFE), rest⟩) := by
  unfold ft_i2c_write_reg_addr
  dsimp only
  rw [dev_addr_write_nack (ft_i2c_start s) b a1 rest
    (by simp [ft_i2c_start, ft_write, h]) h1]
  simp [ft_i2c_start, ft_write, List.append_assoc]

theorem read_loop_eval (raw : List Nat) : ∀ (s : FTState) (rest : List Nat),
    s.responses = raw ++ rest →
    ft_i2c_read_loop s raw.length =
      .ok (raw, ⟨s.written ++ ((readFlags raw.length).map read_give_ack_cmds).flatten, rest⟩) := by
  induction raw with
  | nil =>
    intro s rest h
    simp only [List.length_nil, ft_i2c_read_loop, readFlags, List.map_nil,
      List.flatten_nil, List.append_nil]
    cases s
    simp_all
  | cons b raw ih =>
    intro s rest h
    rw [List.length_cons, ft_i2c_read_loop]
    rw [read_give_ack_eval s (raw.length == 0) b (raw ++ rest) (by simp [h])]
    dsimp only
    rw [ih ⟨s.written ++ read_give_ack_cmds (raw.length == 0), raw ++ rest⟩ rest rfl]
    simp [readFlags, List.append_assoc]

theorem read_bytes_eval (s : FTState) (b : Nat) (raw : List Nat) (a : Nat)
    (rest : List Nat) (h : s.responses = a :: (raw ++ rest)) (ha : a &&& 1 = 0) :
    ft_i2c_read_bytes s b raw.length true =
      .ok (raw, ⟨s.written ++ ft_i2c_start_cmds ++ write_get_ack_cmds ((b &&& 0xFE) ||| 0x1) ++
        ((readFlags raw.length).map read_give_ack_cmds).flatten ++ ft_i2c_stop_cmds, rest⟩) := by
  unfold ft_i2c_read_bytes
  dsimp only
  rw [dev_addr_read_ok (ft_i2c_start s) b a (raw ++ rest)
    (by simp [ft_i2c_start, ft_write, h]) ha]
  dsimp only
  rw [read_loop_eval raw _ rest rfl]
  simp [ft_i2c_start, ft_i2c_stop, ft_write, List.append_assoc]

theorem i2c_read_words_eval (s : FTState) (b reg w : Nat) (raw : List Nat)
    (a1 a2 a3 : Nat) (rest : List Nat)
    (h : s.responses = a1 :: a2 :: a3 :: (raw ++ rest))
    (h1 : a1 &&& 1 = 0) (h2 : a2 &&& 1 = 0) (h3 : a3 &&& 1 = 0)
    (hlen : raw.length = w * 2) :
    i2c_read_words s b reg w =
      .ok (le_word_decode raw,
        ⟨s.written ++ ft_i2c_start_cmds ++ write_get_ack_cmds (b &&& 0xFE) ++
          write_get_ack_cmds reg ++ ft_i2c_start_cmds ++
          write_get_ack_cmds ((b &&& 0xFE) ||| 0x1) ++
          ((readFlags (w * 2)).map read_give_ack_cmds).flatten ++ ft_i2c_stop_cmds, rest⟩) := by
  unfold i2c_read_words
  rw [write_reg_addr_ok s b reg a1 a2 (a3 :: (raw ++ rest)) (by simp [h]) h1 h2]
  dsimp only
  have hrb := read_bytes_eval
    ⟨s.written ++ ft_i2c_start_cmds ++ write_get_ack_cmds (b &&& 0xFE) ++ write_get_ack_cmds reg,
      a3 :: (raw ++ rest)⟩ b raw a3 rest rfl h3
  rw [hlen] at hrb
  rw [hrb]
  dsimp only
  have hu : unpack_le_words w raw = some (le_word_decode raw) := by
    simp [unpack_le_words, hlen, Nat.mul_comm]
  rw [hu]

theorem sbs_block_read_eval (s : FTState) (b reg : Nat) (raw : List Nat)
    (a1 a2 a3 : Nat) (rest : List Nat)
    (h : s.responses = a1 :: a2 :: a3 :: (raw ++ rest))
    (h1 : a1 &&& 1 = 0) (h2 : a2 &&& 1 = 0) (h3 : a3 &&& 1 = 0) :
    sbs_block_read s b reg raw.length =
      .ok (raw,
        ⟨s.written ++ ft_i2c_start_cmds ++ write_get_ack_cmds (b &&& 0xFE) ++
          write_get_ack_cmds reg ++ ft_i2c_start_cmds ++
          write_get_ack_cmds ((b &&& 0xFE) ||| 0x1) ++
          ((readFlags raw.length).map read_give_ack_cmds).flatten ++ ft_i2c_stop_cmds, rest⟩) := by
  unfold sbs_block_read
  rw [write_reg_addr_ok s b reg a1 a2 (a3 :: (raw ++ rest)) (by simp [h]) h1 h2]
  dsimp only
  rw [read_bytes_eval
    ⟨s.written ++ ft_i2c_start_cmds ++ write_get_ack_cmds (b &&& 0xFE) ++ write_get_ack_cmds reg,
      a3 :: (raw ++ rest)⟩ b raw a3 rest rfl h3]

theorem le_word_decode_length : ∀ bs : List Nat,
    (le_word_decode bs).length = bs.length / 2
  | [] => by simp [le_word_decode]
  | [b] => by simp [le_word_decode]
  | b0 :: b1 :: rest => by
    simp only [le_word_decode, List.length_cons, le_word_decode_length rest]
    omega

theorem le_word_decode_getElem? : ∀ (bs : List Nat) (i : Nat),
    (le_word_decode bs)[i]? =
      (bs[2 * i]?).bind fun lo => (bs[2 * i + 1]?).map fun hi => lo + 256 * hi
  | [], i => by simp [le_word_decode]
  | [b], i => by
    cases i with
    | zero => simp [le_word_decode]
    | succ j =>
      have h2 : 2 * (j + 1) = 2 * j + 1 + 1 := by ring
      simp [le_word_decode, h2]
  | b0 :: b1 :: rest, i => by
    cases i with
    | zero => simp [le_word_decode]
    | succ j =>
      have h2 : 2 * (j + 1) = 2 * j + 1 + 1 := by ring
      simp only [le_word_decode, h2, List.getElem?_cons_succ,
        le_word_decode_getElem? rest j]

theorem readFlags_length : ∀ n : Nat, (readFlags n).length = n
  | 0 => rfl
  | n + 1 => by simp [readFlags, readFlags_length n]

theorem readFlags_getElem? : ∀ (n j : Nat), j < n →
    (readFlags n)[j]? = some (decide (j = n - 1))
  | 0, j, h => by omega
  | n + 1, 0, _ => by
    cases n <;> simp [readFlags]
  | n + 1, j + 1, h => by
    have hj : j < n := by omega
    simp only [readFlags, List.getElem?_cons_succ, readFlags_getElem? n j hj]
    have : (j = n - 1) ↔ (j + 1 = n + 1 - 1) := by omega
    rw [decide_eq_decide.mpr this]

theorem le_word_decode_lt : ∀ bs : List Nat, (∀ x ∈ bs, x < 256) →
    ∀ y ∈ le_word_decode bs, y < 65536
  | [], _, y, hy => by simp [le_word_decode] at hy
  | [b], _, y, hy => by simp [le_word_decode] at hy
  | b0 :: b1 :: rest, hb, y, hy => by
    simp only [le_word_decode, List.mem_cons] at hy
    rcases hy with rfl | hy
    · have hb0 : b0 < 256 := hb b0 (by simp)
      have hb1 : b1 < 256 := hb b1 (by simp)
      omega
    · exact le_word_decode_lt rest (fun x hx => hb x (by simp [hx])) y hy

/-- Claim C1: for every `num_words` in the range 1 to 16, `i2c_read_words`
decodes exactly `2 * num_words` raw bytes received from the bus into
`num_words` unsigned 16-bit values, pairing consecutive bytes little-endian
in transfer order. -/
theorem C1_read_words_le_decode (s : FTState) (b reg w : Nat) (raw : List Nat)
    (a1 a2 a3 : Nat) (rest : List Nat)
    (hw1 : 1 ≤ w) (hw2 : w ≤ 16)
    (h : s.responses = a1 :: a2 :: a3 :: (raw ++ rest))
    (h1 : a1 &&& 1 = 0) (h2 : a2 &&& 1 = 0) (h3 : a3 &&& 1 = 0)
    (hlen : raw.length = 2 * w) (hbytes : ∀ x ∈ raw, x < 256) :
    ∃ ws sf, i2c_read_words s b reg w = .ok (ws, sf) ∧
      ws.length = w ∧
      (∀ i, i < w → ∃ lo hi, raw[2 * i]? = some lo ∧ raw[2 * i + 1]? = some hi ∧
        ws[i]? = some (lo + 256 * hi)) ∧
      (∀ x ∈ ws, x < 65536) := by
  refine ⟨le_word_decode raw, _,
    i2c_read_words_eval s b reg w raw a1 a2 a3 rest h h1 h2 h3 (by omega),
    ?_, ?_, le_word_decode_lt raw hbytes⟩
  · rw [le_word_decode_length, hlen]
    omega
  · intro i hi
    have hb1 : 2 * i < raw.length := by omega
    have hb2 : 2 * i + 1 < raw.length := by omega
    refine ⟨raw[2 * i], raw[2 * i + 1], List.getElem?_eq_getElem hb1,
      List.getElem?_eq_getElem hb2, ?_⟩
    rw [le_word_decode_getElem?, List.getElem?_eq_getElem hb1,
      List.getElem?_eq_getElem hb2]
    rfl

theorem C1_read_words_le_decode_witness :
    (∃ ws sf, i2c_read_words ⟨[], [0, 0, 0, 0x34, 0x12, 0x78, 0x56]⟩ 0x6C 0x3A 2 =
        .ok (ws, sf) ∧
      ws.length = 2 ∧
      (∀ i, i < 2 → ∃ lo hi, [0x34, 0x12, 0x78, 0x56][2 * i]? = some lo ∧
        [0x34, 0x12, 0x78, 0x56][2 * i + 1]? = some hi ∧ ws[i]? = some (lo + 256 * hi)) ∧
      (∀ x ∈ ws, x < 65536)) ∧
    (∃ sf, i2c_read_words ⟨[], [0, 0, 0, 0x34, 0x12, 0x78, 0x56]⟩ 0x6C 0x3A 2 =
        .ok ([0x1234, 0x5678], sf)) :=
  ⟨C1_read_words_le_decode ⟨[], [0, 0, 0, 0x34, 0x12, 0x78, 0x56]⟩ 0x6C 0x3A 2
      [0x34, 0x12, 0x78, 0x56] 0 0 0 [] (by decide) (by decide) rfl rfl rfl rfl rfl
      (by decide),
    ⟨_, rfl⟩⟩

/-- Claim C2: for every N at least 1, the addressed N-byte read issues START,
sends the device address with the read flag set, and performs N
read-with-handshake operations whose emitted handshake byte is the NACK
clock-out value 0x80 exactly on the final byte and the ACK clock-out value
0x00 on every preceding byte. -/
theorem C2_read_handshake_nack_last (s : FTState) (b N : Nat) (raw : List Nat)
    (a : Nat) (rest : List Nat) (hN : 1 ≤ N) (hraw : raw.length = N)
    (h : s.responses = a :: (raw ++ rest)) (ha : a &&& 1 = 0) :
    ∃ sf, ft_i2c_read_bytes s b N true = .ok (raw, sf) ∧
      sf.written = s.written ++ ft_i2c_start_cmds ++
        write_get_ack_cmds ((b &&& 0xFE) ||| 0x1) ++
        ((readFlags N).map read_give_ack_cmds).flatten ++ ft_i2c_stop_cmds ∧
      (readFlags N).length = N ∧
      (∀ j, j < N → (readFlags N)[j]? = some (decide (j = N - 1))) ∧
      (∀ f : Bool, ∃ pre post, read_give_ack_cmds f =
        pre ++ [CMD_DATAOUT_NEG_EDGE, DATASIZE_1BIT,
          if f then DATA_SEND_NACK else DATA_SEND_ACK] ++ post) := by
  subst hraw
  refine ⟨_, read_bytes_eval s b raw a rest h ha, rfl, readFlags_length _,
    readFlags_getElem? _, ?_⟩
  intro f
  cases f
  · exact ⟨[CMD_SET_DATABITS_LOW, VAL_SCLLO_SDALO, DIR_SCLOUT_SDAIN,
      CMD_DATAIN_POS_EDGE, DATASIZE_8BITS,
      CMD_SET_DATABITS_LOW, VAL_SCLLO_SDALO, DIR_SCLOUT_SDAOUT],
      [CMD_SET_DATABITS_LOW, VAL_SCLLO_SDALO, DIR_SCLOUT_SDAIN, CMD_SEND_IMMEDIATE],
      by decide⟩
  · exact ⟨[CMD_SET_DATABITS_LOW, VAL_SCLLO_SDALO, DIR_SCLOUT_SDAIN,
      CMD_DATAIN_POS_EDGE, DATASIZE_8BITS,
      CMD_SET_DATABITS_LOW, VAL_SCLLO_SDALO, DIR_SCLOUT_SDAIN],
      [CMD_SET_DATABITS_LOW, VAL_SCLLO_SDALO, DIR_SCLOUT_SDAIN, CMD_SEND_IMMEDIATE],
      by decide⟩

theorem C2_read_handshake_nack_last_witness :
    ∃ sf, ft_i2c_read_bytes ⟨[], [0, 0xAA, 0xBB]⟩ 0x6C 2 true = .ok ([0xAA, 0xBB], sf) ∧
      sf.written = [] ++ ft_i2c_start_cmds ++
        write_get_ack_cmds ((0x6C &&& 0xFE) ||| 0x1) ++
        ((readFlags 2).map read_give_ack_cmds).flatten ++ ft_i2c_stop_cmds ∧
      (readFlags 2).length = 2 ∧
      (∀ j, j < 2 → (readFlags 2)[j]? = some (decide (j = 2 - 1))) ∧
      (∀ f : Bool, ∃ pre post, read_give_ack_cmds f =
        pre ++ [CMD_DATAOUT_NEG_EDGE, DATASIZE_1BIT,
          if f then DATA_SEND_NACK else DATA_SEND_ACK] ++ post) :=
  C2_read_handshake_nack_last ⟨[], [0, 0xAA, 0xBB]⟩ 0x6C 2 [0xAA, 0xBB] 0 []
    (by decide) rfl rfl rfl

/-- Claim C3: the write-with-ack primitive raises the NACK fault exactly when
bit 0 of the single response byte is 1; when bit 0 is 0 it returns normally,
consuming the response byte, and hands back no data byte that could appear in
a returned read result. -/
theorem C3_write_ack_fault_iff (s : FTState) (d r : Nat) (rest : List Nat)
    (h : s.responses = r :: rest) :
    ((∃ sf, ft_i2c_write_get_ack s d = .error (.nack, sf)) ↔ r &&& 1 = 1) ∧
    (r &&& 1 = 0 →
      ft_i2c_write_get_ack s d = .ok ⟨s.written ++ write_get_ack_cmds d, rest⟩) := by
  have hmod := Nat.and_one_is_mod r
  constructor
  · constructor
    · rintro ⟨sf, hf⟩
      by_contra hne
      have h0 : r &&& 1 = 0 := by omega
      rw [write_get_ack_ok s d r rest h h0] at hf
      exact absurd hf (by simp)
    · intro h1
      exact ⟨_, write_get_ack_nack s d r rest h (by omega)⟩
  · intro h0
    exact write_get_ack_ok s d r rest h h0

theorem C3_write_ack_fault_iff_witness :
    (((∃ sf, ft_i2c_write_get_ack ⟨[], [1]⟩ 0x6C = .error (.nack, sf)) ↔ 1 &&& 1 = 1) ∧
      (1 &&& 1 = 0 → ft_i2c_write_get_ack ⟨[], [1]⟩ 0x6C =
        .ok ⟨[] ++ write_get_ack_cmds 0x6C, []⟩)) ∧
    (((∃ sf, ft_i2c_write_get_ack ⟨[], [0xFE]⟩ 0x6C = .error (.nack, sf)) ↔ 0xFE &&& 1 = 1) ∧
      (0xFE &&& 1 = 0 → ft_i2c_write_get_ack ⟨[], [0xFE]⟩ 0x6C =
        .ok ⟨[] ++ write_get_ack_cmds 0x6C, []⟩)) :=
  ⟨C3_write_ack_fault_iff ⟨[], [1]⟩ 0x6C 1 [] rfl,
   C3_write_ack_fault_iff ⟨[], [0xFE]⟩ 0x6C 0xFE [] rfl⟩

theorem write_get_ack_written (s : FTState) (d : Nat) :
    ∃ sf, (ft_i2c_write_get_ack s d = .ok sf ∨
           ∃ e, ft_i2c_write_get_ack s d = .error (e, sf)) ∧
      sf.written = s.written ++ write_get_ack_cmds d := by
  cases hres : s.responses with
  | nil =>
    refine ⟨ft_write s (write_get_ack_cmds d), Or.inr ⟨.shortRead, ?_⟩, rfl⟩
    unfold ft_i2c_write_get_ack ft_read
    dsimp only
    simp [ft_write, hres]
  | cons r rest =>
    by_cases hr : r &&& 1 = 0
    · exact ⟨_, Or.inl (write_get_ack_ok s d r rest hres hr), rfl⟩
    · exact ⟨_, Or.inr ⟨.nack, write_get_ack_nack s d r rest hres hr⟩, rfl⟩

theorem dev_addr_frame (s : FTState) (a : Nat) (r : Bool) :
    ft_i2c_dev_addr s a r =
      ft_i2c_write_get_ack s ((a &&& 0xFE) ||| (if r then 1 else 0)) := by
  unfold ft_i2c_dev_addr
  cases r <;> simp

/-- Claim C4: for every device address up to 255 and every read flag, the
address byte framed and transmitted on the bus equals the address with bit 0
masked to 0, ORed with 1 exactly when the read flag is set; the framed byte
occupies the data slot of the clock-out command in the stream. -/
theorem C4_address_framing (s : FTState) (a : Nat) (r : Bool) (ha : a ≤ 255) :
    ∃ sf, (ft_i2c_dev_addr s a r = .ok sf ∨
           ∃ e, ft_i2c_dev_addr s a r = .error (e, sf)) ∧
      sf.written = s.written ++
        write_get_ack_cmds ((a &&& 0xFE) ||| (if r then 1 else 0)) ∧
      (write_get_ack_cmds ((a &&& 0xFE) ||| (if r then 1 else 0)))[5]? =
        some ((a &&& 0xFE) ||| (if r then 1 else 0)) := by
  obtain ⟨sf, hc, hw⟩ := write_get_ack_written s ((a &&& 0xFE) ||| (if r then 1 else 0))
  rw [dev_addr_frame]
  exact ⟨sf, hc, hw, rfl⟩

theorem C4_address_framing_witness :
    (∃ sf, (ft_i2c_dev_addr ⟨[], [0]⟩ 0x6D true = .ok sf ∨
           ∃ e, ft_i2c_dev_addr ⟨[], [0]⟩ 0x6D true = .error (e, sf)) ∧
      sf.written = [] ++ write_get_ack_cmds ((0x6D &&& 0xFE) ||| (if true then 1 else 0)) ∧
      (write_get_ack_cmds ((0x6D &&& 0xFE) ||| (if true then 1 else 0)))[5]? =
        some ((0x6D &&& 0xFE) ||| (if true then 1 else 0))) ∧
    (∃ sf, (ft_i2c_dev_addr ⟨[], [0]⟩ 0x6D false = .ok sf ∨
           ∃ e, ft_i2c_dev_addr ⟨[], [0]⟩ 0x6D false = .error (e, sf)) ∧
      sf.written = [] ++ write_get_ack_cmds ((0x6D &&& 0xFE) ||| (if false then 1 else 0)) ∧
      (write_get_ack_cmds ((0x6D &&& 0xFE) ||| (if false then 1 else 0)))[5]? =
        some ((0x6D &&& 0xFE) ||| (if false then 1 else 0))) :=
  ⟨C4_address_framing ⟨[], [0]⟩ 0x6D true (by decide),
   C4_address_framing ⟨[], [0]⟩ 0x6D false (by decide)⟩

/-- Claim C5: a NACK on the device-address write of the register-pointer phase
makes i2c_read_words, sbs_block_read and sbs_word_read raise the fault, with
the command stream ending at the device-address write: no read-phase commands
are transmitted. -/
theorem C5_pointer_nack_aborts (s : FTState) (b reg w n : Nat) (r : Nat)
    (rest : List Nat) (h : s.responses = r :: rest) (hr : r &&& 1 = 1) :
    ∃ sf, sf.written = s.written ++ ft_i2c_start_cmds ++
        write_get_ack_cmds (b &&& 0xFE) ∧
      sf.responses = rest ∧
      i2c_read_words s b reg w = .error (.nack, sf) ∧
      sbs_block_read s b reg n = .error (.nack, sf) ∧
      sbs_word_read s b reg = .error (.nack, sf) := by
  have hr0 : r &&& 1 ≠ 0 := by omega
  have hptr := write_reg_addr_nack s b reg false r rest h hr0
  refine ⟨⟨s.written ++ ft_i2c_start_cmds ++ write_get_ack_cmds (b &&& 0xFE), rest⟩,
    rfl, rfl, ?_, ?_, ?_⟩
  · unfold i2c_read_words
    rw [hptr]
  · unfold sbs_block_read
    rw [hptr]
  · unfold sbs_word_read i2c_read_words
    rw [hptr]

theorem C5_pointer_nack_aborts_witness :
    ∃ sf, sf.written = [] ++ ft_i2c_start_cmds ++ write_get_ack_cmds (0x6C &&& 0xFE) ∧
      sf.responses = [7] ∧
      i2c_read_words ⟨[], [1, 7]⟩ 0x6C 0x3A 4 = .error (.nack, sf) ∧
      sbs_block_read ⟨[], [1, 7]⟩ 0x6C 0x3A 6 = .error (.nack, sf) ∧
      sbs_word_read ⟨[], [1, 7]⟩ 0x6C 0x3A = .error (.nack, sf) :=
  C5_pointer_nack_aborts ⟨[], [1, 7]⟩ 0x6C 0x3A 4 6 1 [7] rfl rfl

/-- Claim C6: START transitions the pins through a dwell at clock high and
data high, a dwell at clock high and data low, then a single clock-low
data-low command; STOP transitions through dwells at low-low, high-low and
high-high and then releases both lines to input direction; every dwell is at
least 10 repetitions of the identical pin-state command. -/
theorem C6_start_stop_shape (s : FTState) :
    ∃ d1 d2 e1 e2 e3 : Nat, 10 ≤ d1 ∧ 10 ≤ d2 ∧ 10 ≤ e1 ∧ 10 ≤ e2 ∧ 10 ≤ e3 ∧
      (ft_i2c_start s).written = s.written ++
        ((List.replicate d1 [CMD_SET_DATABITS_LOW, VAL_SCLHI_SDAHI, DIR_SCLOUT_SDAOUT]).flatten ++
         (List.replicate d2 [CMD_SET_DATABITS_LOW, VAL_SCLHI_SDALO, DIR_SCLOUT_SDAOUT]).flatten ++
         [CMD_SET_DATABITS_LOW, VAL_SCLLO_SDALO, DIR_SCLOUT_SDAOUT]) ∧
      (ft_i2c_start s).responses = s.responses ∧
      (ft_i2c_stop s).written = s.written ++
        ((List.replicate e1 [CMD_SET_DATABITS_LOW, VAL_SCLLO_SDALO, DIR_SCLOUT_SDAOUT]).flatten ++
         (List.replicate e2 [CMD_SET_DATABITS_LOW, VAL_SCLHI_SDALO, DIR_SCLOUT_SDAOUT]).flatten ++
         (List.replicate e3 [CMD_SET_DATABITS_LOW, VAL_SCLHI_SDAHI, DIR_SCLOUT_SDAOUT]).flatten ++
         [CMD_SET_DATABITS_LOW, VAL_SCLHI_SDAHI, DIR_SCLIN_SDAIN]) ∧
      (ft_i2c_stop s).responses = s.responses :=
  ⟨10, 20, 10, 10, 10, by omega, by omega, by omega, by omega, by omega,
    rfl, rfl, rfl, rfl⟩

/-- Claim C8: at initialization the clock divisor computed from the nominal
6 MHz master clock and the 100 kHz target (half-rate computation with 40000)
evaluates to 74 and is transmitted to the device as the two bytes 74 then 0,
low byte then high byte. -/
theorem C8_clock_divisor (s : FTState) (r1 r2 : Nat) (rest : List Nat)
    (h : s.responses = r1 :: r2 :: rest) :
    6000000 / (40000 * 2) - 1 = 74 ∧ 74 % 256 = 74 ∧ 74 / 256 = 0 ∧
    ftd2xx_init s = some ⟨s.written ++ [CMD_CLKDIV_DISABLE, 1] ++
      [CMD_SET_CLOCK, 74, 0] ++ [CMD_SET_DATABITS_LOW, 0x13, 0x13], rest⟩ := by
  refine ⟨by norm_num, by norm_num, by norm_num, ?_⟩
  unfold ftd2xx_init ft_read
  dsimp only
  rw [if_pos (by simp [ft_write, h])]
  simp [ft_write, h]

theorem C8_clock_divisor_witness :
    6000000 / (40000 * 2) - 1 = 74 ∧ 74 % 256 = 74 ∧ 74 / 256 = 0 ∧
    ftd2xx_init ⟨[], [9, 9]⟩ = some ⟨[] ++ [CMD_CLKDIV_DISABLE, 1] ++
      [CMD_SET_CLOCK, 74, 0] ++ [CMD_SET_DATABITS_LOW, 0x13, 0x13], []⟩ :=
  C8_clock_divisor ⟨[], [9, 9]⟩ 9 9 [] rfl

/-- Claim C9: in both response-producing primitives, the transmitted command
stream ends with the flush command, placed after the clocked data-in command
and hence before any response byte is consumed, and each primitive then reads
exactly one response byte from the transport. -/
theorem C9_flush_before_consume (d : Nat) (nk : Bool) (s1 s2 : FTState)
    (r1 : Nat) (rest1 : List Nat) (r2 : Nat) (rest2 : List Nat)
    (h1 : s1.responses = r1 :: rest1) (h2 : s2.responses = r2 :: rest2) :
    (∃ pre, write_get_ack_cmds d = pre ++ [CMD_SEND_IMMEDIATE] ∧
      CMD_DATAIN_POS_EDGE ∈ pre) ∧
    (∃ pre, read_give_ack_cmds nk = pre ++ [CMD_SEND_IMMEDIATE] ∧
      CMD_DATAIN_POS_EDGE ∈ pre) ∧
    (∃ sf, (ft_i2c_write_get_ack s1 d = .ok sf ∨
            ft_i2c_write_get_ack s1 d = .error (.nack, sf)) ∧
      sf.responses = rest1) ∧
    (∃ v sf, ft_i2c_read_give_ack s2 nk = .ok (v, sf) ∧ sf.responses = rest2) := by
  refine ⟨⟨[CMD_SET_DATABITS_LOW, VAL_SCLLO_SDAHI, DIR_SCLOUT_SDAOUT,
    CMD_DATAOUT_NEG_EDGE, DATASIZE_8BITS, d,
    CMD_SET_DATABITS_LOW, VAL_SCLLO_SDALO, DIR_SCLOUT_SDAIN,
    CMD_DATAIN_POS_EDGE, DATASIZE_1BIT], rfl, by simp⟩, ?_, ?_, ?_⟩
  · cases nk
    · exact ⟨[CMD_SET_DATABITS_LOW, VAL_SCLLO_SDALO, DIR_SCLOUT_SDAIN,
        CMD_DATAIN_POS_EDGE, DATASIZE_8BITS,
        CMD_SET_DATABITS_LOW, VAL_SCLLO_SDALO, DIR_SCLOUT_SDAOUT,
        CMD_DATAOUT_NEG_EDGE, DATASIZE_1BIT, DATA_SEND_ACK,
        CMD_SET_DATABITS_LOW, VAL_SCLLO_SDALO, DIR_SCLOUT_SDAIN], by decide, by simp⟩
    · exact ⟨[CMD_SET_DATABITS_LOW, VAL_SCLLO_SDALO, DIR_SCLOUT_SDAIN,
        CMD_DATAIN_POS_EDGE, DATASIZE_8BITS,
        CMD_SET_DATABITS_LOW, VAL_SCLLO_SDALO, DIR_SCLOUT_SDAIN,
        CMD_DATAOUT_NEG_EDGE, DATASIZE_1BIT, DATA_SEND_NACK,
        CMD_SET_DATABITS_LOW, VAL_SCLLO_SDALO, DIR_SCLOUT_SDAIN], by decide, by simp⟩
  · by_cases hr : r1 &&& 1 = 0
    · exact ⟨_, Or.inl (write_get_ack_ok s1 d r1 rest1 h1 hr), rfl⟩
    · exact ⟨_, Or.inr (write_get_ack_nack s1 d r1 rest1 h1 hr), rfl⟩
  · exact ⟨r2, _, read_give_ack_eval s2 nk r2 rest2 h2, rfl⟩

theorem C9_flush_before_consume_witness :
    (∃ pre, write_get_ack_cmds 0x3A = pre ++ [CMD_SEND_IMMEDIATE] ∧
      CMD_DATAIN_POS_EDGE ∈ pre) ∧
    (∃ pre, read_give_ack_cmds true = pre ++ [CMD_SEND_IMMEDIATE] ∧
      CMD_DATAIN_POS_EDGE ∈ pre) ∧
    (∃ sf, (ft_i2c_write_get_ack ⟨[], [0]⟩ 0x3A = .ok sf ∨
            ft_i2c_write_get_ack ⟨[], [0]⟩ 0x3A = .error (.nack, sf)) ∧
      sf.responses = []) ∧
    (∃ v sf, ft_i2c_read_give_ack ⟨[], [0x42]⟩ true = .ok (v, sf) ∧
      sf.responses = []) :=
  C9_flush_before_consume 0x3A true ⟨[], [0]⟩ ⟨[], [0x42]⟩ 0 [] 0x42 [] rfl rfl

theorem dev_addr_read_nack (s : FTState) (b r : Nat) (rest : List Nat)
    (h : s.responses = r :: rest) (hr : r &&& 1 ≠ 0) :
    ft_i2c_dev_addr s b true =
      .error (.nack, ⟨s.written ++ write_get_ack_cmds ((b &&& 0xFE) ||| 0x1), rest⟩) := by
  unfold ft_i2c_dev_addr
  simpa using write_get_ack_nack s ((b &&& 0xFE) ||| 0x1) r rest h hr

/-- Claim C10: the addressed read with num_bytes 0 still issues START, sends
the device address with the read flag set (so an address NACK still raises),
issues STOP, emits no data-byte read and no handshake commands, and returns
the empty sequence; i2c_read_words with num_words 0 likewise returns the
empty sequence. -/
theorem C10_zero_length_read (s1 : FTState) (b1 : Nat) (r : Nat) (rest1 : List Nat)
    (h1 : s1.responses = r :: rest1) (hr : r &&& 1 = 0)
    (s2 : FTState) (b2 : Nat) (rn : Nat) (rest2 : List Nat)
    (h2 : s2.responses = rn :: rest2) (hn : rn &&& 1 = 1)
    (s3 : FTState) (b3 reg : Nat) (a1 a2 a3 : Nat) (rest3 : List Nat)
    (h3 : s3.responses = a1 :: a2 :: a3 :: rest3)
    (e1 : a1 &&& 1 = 0) (e2 : a2 &&& 1 = 0) (e3 : a3 &&& 1 = 0) :
    ft_i2c_read_bytes s1 b1 0 true =
      .ok ([], ⟨s1.written ++ ft_i2c_start_cmds ++
        write_get_ack_cmds ((b1 &&& 0xFE) ||| 0x1) ++ ft_i2c_stop_cmds, rest1⟩) ∧
    (∃ sf, ft_i2c_read_bytes s2 b2 0 true = .error (.nack, sf)) ∧
    (∃ sf, i2c_read_words s3 b3 reg 0 = .ok ([], sf) ∧ sf.responses = rest3) := by
  refine ⟨?_, ?_, ?_⟩
  · have := read_bytes_eval s1 b1 [] r rest1 (by simpa using h1) hr
    simpa [readFlags] using this
  · refine ⟨⟨s2.written ++ ft_i2c_start_cmds ++
      write_get_ack_cmds ((b2 &&& 0xFE) ||| 0x1), rest2⟩, ?_⟩
    unfold ft_i2c_read_bytes
    dsimp only
    rw [dev_addr_read_nack (ft_i2c_start s2) b2 rn rest2
      (by simp [ft_i2c_start, ft_write, h2]) (by omega)]
    simp [ft_i2c_start, ft_write, List.append_assoc]
  · refine ⟨⟨s3.written ++ ft_i2c_start_cmds ++ write_get_ack_cmds (b3 &&& 0xFE) ++
      write_get_ack_cmds reg ++ ft_i2c_start_cmds ++
      write_get_ack_cmds ((b3 &&& 0xFE) ||| 0x1) ++ ft_i2c_stop_cmds, rest3⟩, ?_, rfl⟩
    have := i2c_read_words_eval s3 b3 reg 0 [] a1 a2 a3 rest3
      (by simpa using h3) e1 e2 e3 rfl
    simpa [readFlags] using this

theorem C10_zero_length_read_witness :
    ft_i2c_read_bytes ⟨[], [0, 5]⟩ 0x6C 0 true =
      .ok ([], ⟨[] ++ ft_i2c_start_cmds ++
        write_get_ack_cmds ((0x6C &&& 0xFE) ||| 0x1) ++ ft_i2c_stop_cmds, [5]⟩) ∧
    (∃ sf, ft_i2c_read_bytes ⟨[], [1, 5]⟩ 0x6C 0 true = .error (.nack, sf)) ∧
    (∃ sf, i2c_read_words ⟨[], [0, 0, 0, 5]⟩ 0x6C 0x3A 0 = .ok ([], sf) ∧
      sf.responses = [5]) :=
  C10_zero_length_read ⟨[], [0, 5]⟩ 0x6C 0 [5] rfl rfl
    ⟨[], [1, 5]⟩ 0x6C 1 [5] rfl rfl
    ⟨[], [0, 0, 0, 5]⟩ 0x6C 0x3A 0 0 0 [5] rfl rfl rfl rfl

/-- Claim C7: for identical device state — the same raw bytes delivered for
the same device address and register address — the bit-banged backend and the
native-bus backend return identical decoded results from i2c_read_words,
sbs_block_read and sbs_word_read: word reads decoded little-endian and block
reads in on-wire byte order, and the low bit of the bus address has no effect
in either backend (the two backends may be handed bus addresses differing in
the low bit). -/
theorem C7_backend_equivalence (dev : Nat → Nat → Nat → List Nat)
    (b1 b2 reg w n : Nat) (hb : b1 >>> 1 = b2 >>> 1)
    (s1 s2 s3 : FTState) (rest1 rest2 rest3 : List Nat)
    (a1 a2 a3 a4 a5 a6 a7 a8 a9 : Nat)
    (h1 : s1.responses = a1 :: a2 :: a3 :: (dev (b1 >>> 1) reg (w * 2) ++ rest1))
    (e1 : a1 &&& 1 = 0) (e2 : a2 &&& 1 = 0) (e3 : a3 &&& 1 = 0)
    (hlen1 : (dev (b1 >>> 1) reg (w * 2)).length = w * 2)
    (h2 : s2.responses = a4 :: a5 :: a6 :: (dev (b1 >>> 1) reg n ++ rest2))
    (e4 : a4 &&& 1 = 0) (e5 : a5 &&& 1 = 0) (e6 : a6 &&& 1 = 0)
    (hlen2 : (dev (b1 >>> 1) reg n).length = n)
    (h3 : s3.responses = a7 :: a8 :: a9 :: (dev (b1 >>> 1) reg 2 ++ rest3))
    (e7 : a7 &&& 1 = 0) (e8 : a8 &&& 1 = 0) (e9 : a9 &&& 1 = 0)
    (hlen3 : (dev (b1 >>> 1) reg 2).length = 2) :
    (∃ sf, i2c_read_words s1 b1 reg w =
        .ok (le_word_decode (dev (b1 >>> 1) reg (w * 2)), sf)) ∧
    smbus2_i2c_read_words dev b2 reg w =
      some (le_word_decode (dev (b1 >>> 1) reg (w * 2))) ∧
    (∃ sf, sbs_block_read s2 b1 reg n = .ok (dev (b1 >>> 1) reg n, sf)) ∧
    smbus2_sbs_block_read dev b2 reg n = dev (b1 >>> 1) reg n ∧
    (∃ sf, sbs_word_read s3 b1 reg =
        .ok ((le_word_decode (dev (b1 >>> 1) reg 2)).headD 0, sf)) ∧
    smbus2_sbs_word_read dev b2 reg =
      some ((le_word_decode (dev (b1 >>> 1) reg 2)).headD 0) ∧
    smbus2_i2c_read_words dev b1 reg w = smbus2_i2c_read_words dev b2 reg w ∧
    smbus2_sbs_block_read dev b1 reg n = smbus2_sbs_block_read dev b2 reg n ∧
    smbus2_sbs_word_read dev b1 reg = smbus2_sbs_word_read dev b2 reg := by
  refine ⟨⟨_, i2c_read_words_eval s1 b1 reg w _ a1 a2 a3 rest1 h1 e1 e2 e3 hlen1⟩,
    ?_, ?_, ?_, ?_, ?_, ?_, ?_, ?_⟩
  · unfold smbus2_i2c_read_words unpack_le_words
    rw [← hb]
    rw [if_pos (by omega)]
  · have hbl := sbs_block_read_eval s2 b1 reg (dev (b1 >>> 1) reg n) a4 a5 a6 rest2
      h2 e4 e5 e6
    rw [hlen2] at hbl
    exact ⟨_, hbl⟩
  · unfold smbus2_sbs_block_read
    rw [← hb]
  · have hword := i2c_read_words_eval s3 b1 reg 1 (dev (b1 >>> 1) reg 2) a7 a8 a9
      rest3 h3 e7 e8 e9 (by omega)
    exact ⟨_, by unfold sbs_word_read; rw [hword]⟩
  · unfold smbus2_sbs_word_read unpack_le_words
    rw [← hb]
    rw [if_pos (by omega)]
    rfl
  · unfold smbus2_i2c_read_words
    rw [hb]
  · unfold smbus2_sbs_block_read
    rw [hb]
  · unfold smbus2_sbs_word_read
    rw [hb]

/-- A concrete device-state function for exercising the backend equivalence:
every register reads back as repeated bytes 0x21. -/
def constDev : Nat → Nat → Nat → List Nat :=
  fun _ _ k => List.replicate k 0x21

theorem C7_backend_equivalence_witness :
    (∃ sf, i2c_read_words ⟨[], [0, 0, 0, 0x21, 0x21]⟩ 0x6C 0x3A 1 =
        .ok (le_word_decode (constDev (0x6C >>> 1) 0x3A (1 * 2)), sf)) ∧
    smbus2_i2c_read_words constDev 0x6D 0x3A 1 =
      some (le_word_decode (constDev (0x6C >>> 1) 0x3A (1 * 2))) ∧
    (∃ sf, sbs_block_read ⟨[], [0, 0, 0, 0x21, 0x21, 0x21]⟩ 0x6C 0x3A 3 =
        .ok (constDev (0x6C >>> 1) 0x3A 3, sf)) ∧
    smbus2_sbs_block_read constDev 0x6D 0x3A 3 = constDev (0x6C >>> 1) 0x3A 3 ∧
    (∃ sf, sbs_word_read ⟨[], [0, 0, 0, 0x21, 0x21]⟩ 0x6C 0x3A =
        .ok ((le_word_decode (constDev (0x6C >>> 1) 0x3A 2)).headD 0, sf)) ∧
    smbus2_sbs_word_read constDev 0x6D 0x3A =
      some ((le_word_decode (constDev (0x6C >>> 1) 0x3A 2)).headD 0) ∧
    smbus2_i2c_read_words constDev 0x6C 0x3A 1 = smbus2_i2c_read_words constDev 0x6D 0x3A 1 ∧
    smbus2_sbs_block_read constDev 0x6C 0x3A 3 = smbus2_sbs_block_read constDev 0x6D 0x3A 3 ∧
    smbus2_sbs_word_read constDev 0x6C 0x3A = smbus2_sbs_word_read constDev 0x6D 0x3A :=
  C7_backend_equivalence constDev 0x6C 0x6D 0x3A 1 3 (by decide)
    ⟨[], [0, 0, 0, 0x21, 0x21]⟩ ⟨[], [0, 0, 0, 0x21, 0x21, 0x21]⟩
    ⟨[], [0, 0, 0, 0x21, 0x21]⟩ [] [] [] 0 0 0 0 0 0 0 0 0
    rfl rfl rfl rfl rfl rfl rfl rfl rfl rfl rfl rfl rfl rfl rfl
